import Mathlib

/-!
Shallow embedding of the Lernify Road backend (`src/main.py`, `src/schemas.py`).

The document store is modelled as an explicit `DB` value threaded through the
handlers.  User documents are association lists (`Doc`) because the Python code
manipulates them as dicts (`pop`, projection, `to_str_id`); the typed Pydantic
collections (roadmap / progress / assessment result) are modelled as structures
mirroring `schemas.py`.  The two external library calls — `hashlib.sha256(...)
.hexdigest()` and `bson.ObjectId(...)` — are passed in as explicit function
parameters (`hash` for the password hasher, `parseId` for the id parser), since
they are external collaborators of the service, not code of this repository.
-/

set_option autoImplicit false
set_option maxRecDepth 40000

namespace Lernify

/-- A value stored in a document field: a string, a stored object id, or null
(`None`).  These are the only field values the handlers ever inspect. -/
inductive Val where
  | vStr : String → Val
  | vId : Nat → Val
  | vNull : Val
deriving DecidableEq, Repr

/-- A Mongo/Python document, as the dict the handlers manipulate. -/
abbrev Doc := List (String × Val)

/-- `doc.get(k)`: first binding of key `k`. -/
def lookupKey (k : String) : Doc → Option Val
  | [] => none
  | (k₁, v) :: rest => if k₁ = k then some v else lookupKey k rest

/-- `doc.pop(k)` / projection `{k: 0}`: remove the binding of key `k`. -/
def eraseKey (k : String) (d : Doc) : Doc :=
  d.filter (fun kv => kv.1 ≠ k)

/-- `doc[k] = v`: dict assignment (key is unique in a dict; re-inserted at the
end, which is where Python puts a key that was just popped). -/
def setKey (k : String) (v : Val) (d : Doc) : Doc :=
  eraseKey k d ++ [(k, v)]

/-- Python truthiness of a field value (`if doc.get("_id")`). -/
def truthyVal : Val → Bool
  | .vStr s => s ≠ ""
  | .vId _ => true
  | .vNull => false

/-- `str(value)`; only ever applied to object ids by the handlers. -/
def valStr : Val → String
  | .vStr s => s
  | .vId n => toString n
  | .vNull => "None"

/-- The body of `to_str_id` on a present document: when the document is truthy
and has a truthy `_id`, pop `_id` and store its string form under `id`. -/
def to_str_id_doc (d : Doc) : Doc :=
  match lookupKey ("_id") d with
  | some v =>
    if d ≠ [] ∧ truthyVal v then setKey ("id") (.vStr (valStr v)) (eraseKey ("_id") d)
    else d
  | none => d

/-- `to_str_id` (main.py lines 34-37); `None` stays `None`. -/
def to_str_id : Option Doc → Option Doc
  | none => none
  | some d => some (to_str_id_doc d)

/-- `schemas.ALLOWED_QUALIFICATIONS`. -/
def ALLOWED_QUALIFICATIONS : List String :=
  [("B.Tech CSE"), ("B.Tech IT"), ("B.Sc IT"), ("BCA"), ("MCA"), ("M.Sc CS"),
   ("Diploma in CS/IT")]

/-- `schemas.User` (the registration request body; `password_hash` carries the
plaintext password on the wire, as in the source). -/
structure User where
  first_name : String
  last_name : String
  email : String
  phone : String
  qualification : String
  password_hash : String
  role : String
  avatar_url : Option String
deriving DecidableEq, Repr

/-- `User.model_dump()`, fields in declaration order. -/
def User.model_dump (u : User) : Doc :=
  [(("first_name"), .vStr u.first_name),
   (("last_name"), .vStr u.last_name),
   (("email"), .vStr u.email),
   (("phone"), .vStr u.phone),
   (("qualification"), .vStr u.qualification),
   (("password_hash"), .vStr u.password_hash),
   (("role"), .vStr u.role),
   (("avatar_url"), match u.avatar_url with | some s => .vStr s | none => .vNull)]

/-- `main.UpdateProfile` (lines 201-206). -/
structure UpdateProfile where
  first_name : String
  last_name : String
  phone : String
  qualification : String
  avatar_url : Option String
deriving DecidableEq, Repr

/-- `UpdateProfile.model_dump()`. -/
def UpdateProfile.model_dump (p : UpdateProfile) : Doc :=
  [(("first_name"), .vStr p.first_name),
   (("last_name"), .vStr p.last_name),
   (("phone"), .vStr p.phone),
   (("qualification"), .vStr p.qualification),
   (("avatar_url"), match p.avatar_url with | some s => .vStr s | none => .vNull)]

/-- An `HTTPException(status_code=..., detail=...)`. -/
structure HErr where
  status : Nat
  detail : String
deriving DecidableEq, Repr

/-- `schemas.RoadmapStep.questions` entry: `{q, options, answerIndex}`; the
grader reads it with `q.get("answerIndex")`, so a missing index is `none`. -/
structure Question where
  q : String
  options : List String
  answerIndex : Option Int
deriving DecidableEq, Repr

/-- `schemas.RoadmapStep`. -/
structure RoadmapStep where
  order : Int
  title : String
  description : String
  videos : List String
  questions : List Question
deriving DecidableEq, Repr

/-- A document of the `roadmap` collection: `{domain, steps}`. -/
structure Roadmap where
  domain : String
  steps : List RoadmapStep
deriving DecidableEq, Repr

/-- `schemas.AssessmentResult`. -/
structure AssessmentResult where
  user_id : String
  domain : String
  step_order : Int
  score : Nat
  total : Nat
  passed : Bool
deriving DecidableEq, Repr

/-- `schemas.Progress`; `scores` is keyed by the step order (stored under the
string key `str(step_order)`, which identifies the order uniquely). -/
structure Progress where
  user_id : String
  domain : String
  completed_steps : List Int
  scores : List (Int × Nat)
deriving DecidableEq, Repr

/-- The document store: one field per collection the handlers touch, plus the
counter generating fresh object ids for `insert_one`. -/
structure DB where
  users : List Doc
  nextId : Nat
  roadmaps : List Roadmap
  progresses : List Progress
  results : List AssessmentResult
deriving DecidableEq, Repr

/-- A store with no documents at all. -/
def emptyDB : DB :=
  { users := [], nextId := 0, roadmaps := [], progresses := [], results := [] }

/-- `db.user.find_one({"email": email})`. -/
def findUserByEmail (db : DB) (email : String) : Option Doc :=
  db.users.find? (fun d => lookupKey ("email") d == some (.vStr email))

/-- `db.user.find_one({"_id": oid})`. -/
def findUserById (db : DB) (oid : Nat) : Option Doc :=
  db.users.find? (fun d => lookupKey ("_id") d == some (.vId oid))

/-- Python truthiness of a `find_one` result (`if db.user.find_one(...)`):
`None` and the empty dict are falsy. -/
def truthyDoc : Option Doc → Bool
  | none => false
  | some d => !d.isEmpty

/-- `doc` of main.py lines 153-154:
`doc = user.model_dump(); doc["password_hash"] = hash_password(doc.pop("password_hash"))`. -/
def registerDoc (hash : String → String) (u : User) : Doc :=
  setKey ("password_hash") (.vStr (hash u.password_hash)) u.model_dump

/-- The document as persisted by `insert_one` at main.py line 155, with its
generated object id. -/
def registerStored (hash : String → String) (db : DB) (u : User) : Doc :=
  setKey ("_id") (.vId db.nextId) (registerDoc hash u)

/-- The store after the insert of main.py line 155. -/
def registerDB (hash : String → String) (db : DB) (u : User) : DB :=
  { db with users := db.users ++ [registerStored hash db u],
            nextId := db.nextId + 1 }

/-- `register` (main.py lines 147-157). -/
def register (hash : String → String) (db : DB) (u : User) :
    Except HErr (DB × Option Doc) :=
  if u.qualification ∉ ALLOWED_QUALIFICATIONS then
    .error ⟨403, ("Only IT-related students can register")⟩
  else if truthyDoc (findUserByEmail db u.email) then
    .error ⟨400, ("Email already registered")⟩
  else
    let db₁ := registerDB hash db u
    let saved := (findUserById db₁ db.nextId).map (eraseKey ("password_hash"))
    .ok (db₁, to_str_id saved)

/-- `login` (main.py lines 160-168). -/
def login (hash : String → String) (db : DB) (email password : String) :
    Except HErr (Option Doc) :=
  match findUserByEmail db email with
  | none => .error ⟨401, ("Invalid credentials")⟩
  | some user =>
    if user.isEmpty then .error ⟨401, ("Invalid credentials")⟩   -- `if not user`
    else if lookupKey ("password_hash") user ≠ some (.vStr (hash password)) then
      .error ⟨401, ("Invalid credentials")⟩
    else
      .ok (to_str_id (some (eraseKey ("password_hash") user)))

/-- `get_profile` (main.py lines 189-198). -/
def get_profile (parseId : String → Option Nat) (db : DB) (user_id : String) :
    Except HErr (Option Doc) :=
  match parseId user_id with
  | none => .error ⟨400, ("Invalid user id")⟩
  | some oid =>
    match (findUserById db oid).map (eraseKey ("password_hash")) with
    | none => .error ⟨404, ("User not found")⟩
    | some user =>
      if user.isEmpty then .error ⟨404, ("User not found")⟩   -- `if not user`
      else .ok (to_str_id (some user))

/-- `{"$set": updates}` applied to one document. -/
def setFields (updates : Doc) (d : Doc) : Doc :=
  updates.foldl (fun acc kv => setKey kv.1 kv.2 acc) d

/-- `db.user.update_one({"_id": oid}, {"$set": updates})`: update the first
matching document, if any (no upsert). -/
def updateFirstUser (oid : Nat) (updates : Doc) : List Doc → List Doc
  | [] => []
  | d :: rest =>
    if lookupKey ("_id") d == some (.vId oid) then setFields updates d :: rest
    else d :: updateFirstUser oid updates rest

/-- `update_profile` (main.py lines 209-220). -/
def update_profile (parseId : String → Option Nat) (db : DB) (user_id : String)
    (payload : UpdateProfile) : Except HErr (DB × Option Doc) :=
  match parseId user_id with
  | none => .error ⟨400, ("Invalid user id")⟩
  | some oid =>
    if payload.qualification ∉ ALLOWED_QUALIFICATIONS then
      .error ⟨400, ("Invalid qualification")⟩
    else
      let db₁ : DB := { db with users := updateFirstUser oid payload.model_dump db.users }
      let user := (findUserById db₁ oid).map (eraseKey ("password_hash"))
      .ok (db₁, to_str_id user)

/-- `SEED_ROADMAPS` (main.py lines 43-98), as the (insertion-ordered) list of
the dict's entries. -/
def SEED_ROADMAPS : List (String × List RoadmapStep) :=
  [(("frontend"),
    [{ order := 1, title := ("HTML & CSS Basics"),
       description := ("Learn HTML structure and CSS styling."),
       videos := [("https://www.youtube.com/watch?v=G3e-cpL7ofc"),
                  ("https://www.youtube.com/watch?v=mU6anWqZJcc")],
       questions :=
         [{ q := ("What tag defines a hyperlink?"),
            options := [("<a>"), ("<link>"), ("<href>")], answerIndex := some 0 },
          { q := ("Which property changes text color?"),
            options := [("font"), ("color"), ("text")], answerIndex := some 1 }] },
     { order := 2, title := ("JavaScript Fundamentals"),
       description := ("Variables, functions, DOM."),
       videos := [("https://www.youtube.com/watch?v=PkZNo7MFNFg")],
       questions :=
         [{ q := ("Which declares a block-scoped variable?"),
            options := [("var"), ("let"), ("function")], answerIndex := some 1 },
          { q := ("DOM stands for?"),
            options := [("Document Object Model"), ("Data Object Method"),
                        ("Display Object Map")], answerIndex := some 0 }] },
     { order := 3, title := ("React Basics"),
       description := ("Components, state, props."),
       videos := [("https://www.youtube.com/watch?v=bMknfKXIFA8")],
       questions :=
         [{ q := ("State is used to?"),
            options := [("Style components"), ("Manage dynamic data"),
                        ("Route pages")], answerIndex := some 1 }] }]),
   (("backend"),
    [{ order := 1, title := ("Programming & Git"),
       description := ("Language basics and version control."),
       videos := [("https://www.youtube.com/watch?v=SWYqp7iY_Tc")],
       questions :=
         [{ q := ("git commit does?"),
            options := [("Send to remote"), ("Save snapshot"), ("Create branch")],
            answerIndex := some 1 }] },
     { order := 2, title := ("Node.js & Express"),
       description := ("APIs, routing, middleware."),
       videos := [("https://www.youtube.com/watch?v=L72fhGm1tfE")],
       questions :=
         [{ q := ("Express is?"),
            options := [("DB"), ("Framework"), ("Language")],
            answerIndex := some 1 }] },
     { order := 3, title := ("Databases"),
       description := ("SQL/NoSQL basics."),
       videos := [("https://www.youtube.com/watch?v=E-1xI85Zog8")],
       questions :=
         [{ q := ("NoSQL example?"),
            options := [("MongoDB"), ("MySQL"), ("PostgreSQL")],
            answerIndex := some 0 }] }]),
   (("ai-ml"),
    [{ order := 1, title := ("Python & Numpy"),
       description := ("Python essentials, arrays."),
       videos := [("https://www.youtube.com/watch?v=_uQrJ0TkZlc")],
       questions :=
         [{ q := ("Numpy is used for?"),
            options := [("Web"), ("Arrays & math"), ("OS")],
            answerIndex := some 1 }] },
     { order := 2, title := ("Pandas & Data"),
       description := ("Dataframes, cleaning."),
       videos := [("https://www.youtube.com/watch?v=vmEHCJofslg")],
       questions :=
         [{ q := ("Pandas DataFrame is?"),
            options := [("2D table"), ("1D list"), ("3D cube")],
            answerIndex := some 0 }] },
     { order := 3, title := ("ML Basics"),
       description := ("Supervised vs unsupervised."),
       videos := [("https://www.youtube.com/watch?v=Gv9_4yMHFhI")],
       questions :=
         [{ q := ("Supervised uses?"),
            options := [("Labels"), ("No data"), ("Only images")],
            answerIndex := some 0 }] }])]

/-- `db.roadmap.find_one({"domain": domain})`. -/
def findRoadmap (db : DB) (domain : String) : Option Roadmap :=
  db.roadmaps.find? (fun r => r.domain == domain)

/-- One iteration of the seeding loop: insert the domain's steps only if no
record for the domain exists yet. -/
def seedOne (db : DB) (d : String × List RoadmapStep) : DB :=
  if (findRoadmap db d.1).isSome then db
  else { db with roadmaps := db.roadmaps ++ [⟨d.1, d.2⟩] }

/-- `ensure_roadmaps_seeded` (main.py lines 101-113). -/
def ensure_roadmaps_seeded (db : DB) : DB :=
  SEED_ROADMAPS.foldl seedOne db

/-- The filter `{"user_id": uid, "domain": domain}` on the progress
collection. -/
def progMatches (uid domain : String) (pr : Progress) : Bool :=
  pr.user_id == uid && pr.domain == domain

/-- `db.progress.find_one({"user_id": uid, "domain": domain})`. -/
def findProgress (db : DB) (uid domain : String) : Option Progress :=
  db.progresses.find? (progMatches uid domain)

/-- The fetch-or-create logic shared by `get_progress` (main.py lines 252-255)
and the start of `submit_assessment` (lines 270-273): return the stored record,
or insert and return a fresh empty one. -/
def get_or_create_progress (db : DB) (uid domain : String) : DB × Progress :=
  match findProgress db uid domain with
  | some pr => (db, pr)
  | none =>
    let fresh : Progress := ⟨uid, domain, [], []⟩
    ({ db with progresses := db.progresses ++ [fresh] }, fresh)

/-- `get_progress` (main.py lines 250-256): returns the (possibly just
created) progress record that the response serialises. -/
def get_progress (db : DB) (uid domain : String) : DB × Progress :=
  get_or_create_progress db uid domain

/-- `main.SubmitAssessment` (lines 243-247). -/
structure SubmitAssessment where
  user_id : String
  domain : String
  step_order : Int
  answers : List Int
deriving DecidableEq, Repr

/-- The generator-sum of main.py line 278, with the running `enumerate` index
made explicit: count the answers `ans` at position `i` with
`i < len(correct_indexes) and ans == correct_indexes[i]`. -/
def scoreAux (correct : List (Option Int)) (i : Nat) : List Int → Nat
  | [] => 0
  | ans :: rest =>
    (if i < correct.length ∧ correct[i]? = some (some ans) then 1 else 0)
      + scoreAux correct (i + 1) rest

/-- `score = sum(1 for i, ans in enumerate(payload.answers) if ...)`. -/
def gradeScore (correct : List (Option Int)) (answers : List Int) : Nat :=
  scoreAux correct 0 answers

/-- Mongo `$addToSet`: append the element only when absent. -/
def addToSet (x : Int) (l : List Int) : List Int :=
  if x ∈ l then l else l ++ [x]

/-- Mongo `$set` on `scores.<step_order>`: replace the entry in place, or add
it when absent. -/
def setScoreKey (k : Int) (v : Nat) : List (Int × Nat) → List (Int × Nat)
  | [] => [(k, v)]
  | (k₁, v₁) :: rest =>
    if k₁ = k then (k, v) :: rest else (k₁, v₁) :: setScoreKey k v rest

/-- `db.progress.update_one({"user_id", "domain"}, {$addToSet, $set},
upsert=True)` of main.py lines 293-300: update the first matching record, or
insert the document the filter plus update would create. -/
def update_progress_passed (uid domain : String) (order : Int) (score : Nat) :
    List Progress → List Progress
  | [] => [⟨uid, domain, [order], [(order, score)]⟩]
  | pr :: rest =>
    if progMatches uid domain pr then
      { pr with completed_steps := addToSet order pr.completed_steps,
                scores := setScoreKey order score pr.scores } :: rest
    else pr :: update_progress_passed uid domain order score rest

/-- `correct_indexes` (main.py line 277). -/
def correct_indexes (step : RoadmapStep) : List (Option Int) :=
  step.questions.map (fun q => q.answerIndex)

/-- `score` (main.py line 278). -/
def submitScore (step : RoadmapStep) (p : SubmitAssessment) : Nat :=
  gradeScore (correct_indexes step) p.answers

/-- `total` (main.py line 279). -/
def submitTotal (step : RoadmapStep) : Nat :=
  (correct_indexes step).length

/-- Round-to-nearest, ties-to-even, of `n / 2^s` (the rounding IEEE-754
binary64 arithmetic applies to a significand that is `s` bits too wide). -/
def rneShift (n s : Nat) : Nat :=
  if s = 0 then n
  else if n % 2 ^ s < 2 ^ (s - 1) then n / 2 ^ s
  else if 2 ^ (s - 1) < n % 2 ^ s then n / 2 ^ s + 1
  else if n / 2 ^ s % 2 = 0 then n / 2 ^ s else n / 2 ^ s + 1

/-- One step of the binary search for the bit length: while `2^k` still fits
into the remaining quotient, shift it out and add `k` to the accumulated
length. -/
def blStep (k : Nat) (p : Nat × Nat) : Nat × Nat :=
  if 2 ^ k ≤ p.1 then (p.1 / 2 ^ k, p.2 + k) else p

/-- Bit length (`⌊log₂ n⌋ + 1` for `n ≥ 1`, `0` for `0`), by binary search
over the exponent; exact for `n < 2^2048`, which covers the whole finite
binary64 range. -/
def bitLen (n : Nat) : Nat :=
  if n = 0 then 0
  else
    (blStep 1 (blStep 2 (blStep 4 (blStep 8 (blStep 16 (blStep 32 (blStep 64
      (blStep 128 (blStep 256 (blStep 512 (blStep 1024 (n, 0)))))))))))).2 + 1

/-- Round a natural number to at most 53 significant bits, ties to even:
returns `(m, s)` with the rounded value `m * 2^s`.  This is exactly how a
nonnegative integer is rounded to a binary64 value. -/
def roundSig53 (n : Nat) : Nat × Nat :=
  if bitLen n ≤ 53 then (n, 0)
  else (rneShift n (bitLen n - 53), bitLen n - 53)

/-- `int(0.6 * t)` as CPython computes it: `t` is rounded to a binary64 value
`m₁·2^s₁`, multiplied by the binary64 literal `0.6 = 5404319552844595/2^53`
(the product `5404319552844595·m₁·2^(s₁-53)` is rounded to a binary64 value
again), and the result is truncated to an integer.  Faithful whenever the
float computation stays in the binary64 finite range (beyond it CPython
raises `OverflowError`, which is out of scope of the grading claims). -/
def floatThreshold (t : Nat) : Nat :=
  let r₁ := roundSig53 t
  let p := 5404319552844595 * r₁.1
  let r₂ := roundSig53 p
  let e := r₁.2 + r₂.2
  if 53 ≤ e then r₂.1 * 2 ^ (e - 53) else r₂.1 / 2 ^ (53 - e)

/-- `passed = score >= max(1, int(0.6 * total))` (main.py line 280), with the
floating-point right-hand side `int(0.6 * total)` modelled bit-exactly by
`floatThreshold`. -/
def submitPassed (step : RoadmapStep) (p : SubmitAssessment) : Bool :=
  decide (submitScore step p ≥ max 1 (floatThreshold (submitTotal step)))

/-- The `AssessmentResult` of main.py lines 282-289. -/
def submitResult (step : RoadmapStep) (p : SubmitAssessment) : AssessmentResult :=
  ⟨p.user_id, p.domain, p.step_order, submitScore step p, submitTotal step,
   submitPassed step p⟩

/-- `submit_assessment` (main.py lines 259-302).  Returns the store as left
behind by the handler together with the outcome: the persisted
`AssessmentResult` on success, the raised `HTTPException` otherwise.  (The
progress record lazily inserted at lines 271-273 persists even when the gate
check then fails, which the returned store reflects.) -/
def submit_assessment (db : DB) (p : SubmitAssessment) :
    DB × Except HErr AssessmentResult :=
  match findRoadmap db p.domain with
  | none => (db, .error ⟨404, ("Roadmap not found")⟩)
  | some rm =>
    match rm.steps.find? (fun s => s.order == p.step_order) with
    | none => (db, .error ⟨404, ("Step not found")⟩)
    | some step =>
      let gc := get_or_create_progress db p.user_id p.domain
      if p.step_order > 1 ∧ (p.step_order - 1) ∉ gc.2.completed_steps then
        (gc.1, .error ⟨403, ("Complete previous step first")⟩)
      else
        let result := submitResult step p
        let db₂ : DB := { gc.1 with results := gc.1.results ++ [result] }
        let db₃ : DB :=
          if result.passed then
            { db₂ with progresses :=
                (update_progress_passed p.user_id p.domain p.step_order
                  result.score db₂.progresses) }
          else db₂
        (db₃, .ok result)

/-- The unlocking rule the gate check of main.py line 274 enforces: the check
raises exactly when `step_order > 1` and `step_order - 1` is not completed. -/
def isStepUnlocked (prog : Progress) (order : Int) : Bool :=
  !(decide (order > 1) && !(prog.completed_steps.contains (order - 1)))

/-- The score as the specification words it: the number of positions `i` with
`i` below the question count, an answer present at position `i`, and that
answer equal to the question's correct-answer index at position `i`. -/
def claimScore (questions : List Question) (answers : List Int) : Nat :=
  (List.range questions.length).countP (fun i =>
    match answers[i]?, questions[i]? with
    | some a, some q => q.answerIndex == some a
    | _, _ => false)

/-!  ### Lemmas about documents  -/

theorem lookupKey_eraseKey (k k₁ : String) (d : Doc) :
    lookupKey k (eraseKey k₁ d) = if k = k₁ then none else lookupKey k d := by
  induction d with
  | nil => simp [eraseKey, lookupKey]
  | cons kv rest ih =>
    obtain ⟨k₂, v⟩ := kv
    by_cases h1 : k₂ = k₁ <;> by_cases h2 : k = k₁ <;> by_cases h3 : k₂ = k <;>
      simp_all [eraseKey, lookupKey, List.filter_cons]

theorem lookupKey_append (k : String) (d₁ d₂ : Doc) :
    lookupKey k (d₁ ++ d₂) = (lookupKey k d₁).or (lookupKey k d₂) := by
  induction d₁ with
  | nil => simp [lookupKey]
  | cons kv rest ih =>
    obtain ⟨k₁, v⟩ := kv
    by_cases h : k₁ = k <;> simp [lookupKey, h, ih]

theorem lookupKey_setKey (k k₁ : String) (v : Val) (d : Doc) :
    lookupKey k (setKey k₁ v d) = if k = k₁ then some v else lookupKey k d := by
  unfold setKey
  rw [lookupKey_append, lookupKey_eraseKey]
  by_cases h : k = k₁
  · simp [h, lookupKey]
  · have h' : ¬k₁ = k := fun hh => h hh.symm
    simp [h, h', lookupKey]

theorem lookupKey_to_str_id {k : String} (hk1 : k ≠ ("id")) (hk2 : k ≠ ("_id"))
    {d d' : Doc} (h : to_str_id (some d) = some d') :
    lookupKey k d' = lookupKey k d := by
  have hd : d' = to_str_id_doc d := by
    have : to_str_id (some d) = some (to_str_id_doc d) := rfl
    rw [this] at h
    exact (Option.some.injEq _ _ ▸ h).symm
  subst hd
  unfold to_str_id_doc
  split
  · split
    · rw [lookupKey_setKey, lookupKey_eraseKey]
      simp [hk1, hk2]
    · rfl
  · rfl

/-- Dropping the digest and then serialising with `to_str_id` yields a
document with no `password_hash` binding. -/
theorem noDigest_of_to_str_id_erase {d v : Doc}
    (h : to_str_id (some (eraseKey ("password_hash") d)) = some v) :
    lookupKey ("password_hash") v = none := by
  rw [lookupKey_to_str_id (by decide) (by decide) h, lookupKey_eraseKey]
  simp

/-!  ### Lemmas about scoring  -/

theorem scoreAux_eq_countP_zip (co : List (Option Int)) (ans : List Int) (i : Nat) :
    scoreAux co i ans = (ans.zip (co.drop i)).countP (fun x => x.2 == some x.1) := by
  induction ans generalizing i with
  | nil => simp [scoreAux]
  | cons a rest ih =>
    cases hd : co.drop i with
    | nil =>
      have hlen : co.length ≤ i := by
        by_contra hlt
        push_neg at hlt
        have := List.drop_eq_nil_iff.mp hd
        omega
      have hnil : co.drop (i + 1) = [] := by
        rw [← List.tail_drop, hd]
        rfl
      have hnone : co[i]? = none := List.getElem?_eq_none hlen
      rw [scoreAux, ih, hnil, List.zip_nil_right, List.zip_nil_right]
      simp [hnone]
    | cons v vs =>
      have h1 : co[i]? = some v := by
        have := List.getElem?_drop co i 0
        rw [hd] at this
        simpa using this.symm
      have h3 : i < co.length := by
        by_contra hge
        push_neg at hge
        rw [List.getElem?_eq_none hge] at h1
        cases h1
      have h2 : co.drop (i + 1) = vs := by
        rw [← List.tail_drop, hd]
        rfl
      rw [scoreAux, ih, h2, List.zip_cons_cons, List.countP_cons]
      by_cases hm : v = some a
      · simp [h1, h3, hm, Nat.add_comm]
      · have hm' : ¬(i < co.length ∧ co[i]? = some (some a)) := by
          rw [h1]
          intro hcon
          exact hm (by injection hcon.2)
        simp [hm', hm]

theorem claimScore_eq_countP_zip (qs : List Question) (ans : List Int) :
    claimScore qs ans =
      (ans.zip (qs.map (fun q => q.answerIndex))).countP (fun x => x.2 == some x.1) := by
  induction qs generalizing ans with
  | nil => simp [claimScore]
  | cons q rest ih =>
    cases ans with
    | nil =>
      rw [claimScore, List.zip_nil_left, List.countP_nil, List.countP_eq_zero]
      intro i _
      simp
    | cons a as =>
      rw [claimScore, List.length_cons, List.range_succ_eq_map, List.countP_cons,
        List.countP_map, List.map_cons, List.zip_cons_cons, List.countP_cons]
      have hhead :
          (match (a :: as)[(0 : Nat)]?, (q :: rest)[(0 : Nat)]? with
            | some a, some q => q.answerIndex == some a
            | _, _ => false) = (q.answerIndex == some a) := by
        simp
      have htail : ∀ i : Nat,
          (match (a :: as)[i + 1]?, (q :: rest)[i + 1]? with
            | some a, some q => q.answerIndex == some a
            | _, _ => false) =
          (match as[i]?, rest[i]? with
            | some a, some q => q.answerIndex == some a
            | _, _ => false) := by
        intro i
        simp
      rw [hhead]
      have hcount : (List.range rest.length).countP
            ((fun i =>
              match (a :: as)[i]?, (q :: rest)[i]? with
              | some a, some q => q.answerIndex == some a
              | _, _ => false) ∘ Nat.succ)
          = claimScore rest as := by
        rw [claimScore]
        apply List.countP_congr
        intro i _
        simp only [Function.comp_apply, Nat.succ_eq_add_one]
        rw [htail i]
      rw [hcount, ih]

/-- The graded score equals the score as the specification words it. -/
theorem gradeScore_eq_claimScore (qs : List Question) (ans : List Int) :
    gradeScore (qs.map (fun q => q.answerIndex)) ans = claimScore qs ans := by
  rw [gradeScore, scoreAux_eq_countP_zip, List.drop_zero, claimScore_eq_countP_zip]

/-- The exact-arithmetic floor `⌊0.6·t⌋` over the rationals is `⌊3·t/5⌋`
(this is about exact arithmetic only: the handler's floating-point
`int(0.6*t)`, modelled by `floatThreshold`, agrees with it for small `t` —
see `floatThreshold_eq_exact` — but not for every `t`). -/
theorem floor_point_six (t : Nat) : Nat.floor ((0.6 : ℚ) * t) = 3 * t / 5 := by
  have h : (0.6 : ℚ) = 3 / 5 := by norm_num
  have h2 : (3 : ℚ) / 5 * t = ((3 * t : ℕ) : ℚ) / ((5 : ℕ) : ℚ) := by
    push_cast
    ring
  rw [h, h2, Nat.floor_div_nat, Nat.floor_natCast]

/-!  ### The floating-point threshold  -/

/-- The invariant threaded through the bit-length binary search: the first
component is the original number shifted right by the second, it is still
positive, and it fits in `k` bits. -/
def blInv (n k : Nat) (p : Nat × Nat) : Prop :=
  1 ≤ p.1 ∧ p.1 = n / 2 ^ p.2 ∧ p.1 < 2 ^ k

theorem blStep_inv (n k : Nat) (p : Nat × Nat) (h : blInv n (2 * k) p) :
    blInv n k (blStep k p) := by
  obtain ⟨h1, h2, h3⟩ := h
  unfold blInv blStep
  by_cases hc : 2 ^ k ≤ p.1
  · rw [if_pos hc]
    refine ⟨?_, ?_, ?_⟩
    · exact (Nat.one_le_div_iff (by positivity)).mpr hc
    · rw [h2, Nat.div_div_eq_div_mul, ← pow_add]
    · rw [Nat.div_lt_iff_lt_mul (by positivity)]
      calc p.1 < 2 ^ (2 * k) := h3
      _ = 2 ^ k * 2 ^ k := by
        rw [← pow_add]
        congr 1
        omega
  · rw [if_neg hc]
    exact ⟨h1, h2, by omega⟩

theorem bitLen_spec (n : Nat) (hn : 1 ≤ n) (hbig : n < 2 ^ 2048) :
    2 ^ (bitLen n - 1) ≤ n ∧ n < 2 ^ bitLen n := by
  have h0 : blInv n 2048 (n, 0) := ⟨hn, by simp, hbig⟩
  have h1 := blStep_inv n 1024 (n, 0) h0
  have h2 := blStep_inv n 512 _ h1
  have h3 := blStep_inv n 256 _ h2
  have h4 := blStep_inv n 128 _ h3
  have h5 := blStep_inv n 64 _ h4
  have h6 := blStep_inv n 32 _ h5
  have h7 := blStep_inv n 16 _ h6
  have h8 := blStep_inv n 8 _ h7
  have h9 := blStep_inv n 4 _ h8
  have h10 := blStep_inv n 2 _ h9
  have h11 := blStep_inv n 1 _ h10
  obtain ⟨ha, hb, hc⟩ := h11
  set pfin := blStep 1 (blStep 2 (blStep 4 (blStep 8 (blStep 16 (blStep 32
      (blStep 64 (blStep 128 (blStep 256 (blStep 512
        (blStep 1024 (n, 0)))))))))))  with hpfin
  have hone : pfin.1 = 1 := by
    have h2 : (2 : Nat) ^ 1 = 2 := by norm_num
    omega
  have hL : n / 2 ^ pfin.2 = 1 := by omega
  have hpos : 0 < 2 ^ pfin.2 := by positivity
  have hlo : 2 ^ pfin.2 ≤ n := (Nat.one_le_div_iff hpos).mp (le_of_eq hL.symm)
  have hhi : n < 2 ^ (pfin.2 + 1) := by
    have h1 : n / 2 ^ pfin.2 < 2 := by omega
    have h2 := (Nat.div_lt_iff_lt_mul hpos).mp h1
    rw [pow_succ]
    omega
  unfold bitLen
  rw [if_neg (by omega), ← hpfin]
  exact ⟨by simpa using hlo, hhi⟩

theorem bitLen_le (n k : Nat) (h : n < 2 ^ k) (hk : k ≤ 2048) : bitLen n ≤ k := by
  rcases Nat.eq_zero_or_pos n with rfl | hn
  · rw [show bitLen 0 = 0 from rfl]
    omega
  · obtain ⟨hl, -⟩ := bitLen_spec n hn
      (lt_of_lt_of_le h (Nat.pow_le_pow_right (by omega) hk))
    by_contra hc
    push_neg at hc
    have := Nat.pow_le_pow_right (show 1 ≤ 2 by omega)
      (show k ≤ bitLen n - 1 by omega)
    omega

theorem rneShift_bounds (n s : Nat) (hs : 1 ≤ s) :
    n ≤ rneShift n s * 2 ^ s + 2 ^ (s - 1) ∧
    rneShift n s * 2 ^ s ≤ n + 2 ^ (s - 1) := by
  have hdm : 2 ^ s * (n / 2 ^ s) + n % 2 ^ s = n := Nat.div_add_mod n (2 ^ s)
  have hdm' : n / 2 ^ s * 2 ^ s + n % 2 ^ s = n := by
    rw [Nat.mul_comm (2 ^ s) (n / 2 ^ s)] at hdm
    exact hdm
  have hmod : n % 2 ^ s < 2 ^ s := Nat.mod_lt _ (by positivity)
  have e1 : 2 ^ s = 2 * 2 ^ (s - 1) := by
    rw [← pow_succ']
    congr 1
    omega
  have hq1 : (n / 2 ^ s + 1) * 2 ^ s = n / 2 ^ s * 2 ^ s + 2 ^ s :=
    Nat.succ_mul _ _
  unfold rneShift
  rw [if_neg (by omega : ¬s = 0)]
  split_ifs with h1 h2 h3
  · constructor <;> omega
  · simp only [hq1]
    constructor <;> omega
  · constructor <;> omega
  · simp only [hq1]
    constructor <;> omega

theorem rneShift_eq_add_one (n s : Nat) (hs : 1 ≤ s)
    (hr : 2 ^ (s - 1) < n % 2 ^ s) :
    rneShift n s = n / 2 ^ s + 1 := by
  unfold rneShift
  rw [if_neg (by omega : ¬s = 0), if_neg (by omega), if_pos hr]

theorem roundSig53_small (n : Nat) (h : n < 2 ^ 53) : roundSig53 n = (n, 0) := by
  unfold roundSig53
  rw [if_pos (bitLen_le n 53 h (by omega))]

/-- Below `2^50` questions the floating-point threshold `int(0.6 * t)`
agrees with the exact floor `⌊3·t/5⌋`: the relative rounding error of the
float pipeline is too small to cross an integer boundary there. -/
theorem floatThreshold_eq_exact (t : Nat) (ht : t < 2 ^ 50) :
    floatThreshold t = 3 * t / 5 := by
  rcases Nat.eq_zero_or_pos t with rfl | ht1
  · decide
  · have ht53 : t < 2 ^ 53 :=
      lt_of_lt_of_le ht (Nat.pow_le_pow_right (by omega) (by omega))
    have hr1 : roundSig53 t = (t, 0) := roundSig53_small t ht53
    unfold floatThreshold
    rw [hr1]
    simp only [Nat.zero_add]
    have hCt : 5404319552844595 * ((t, 0) : Nat × Nat).1 = 5404319552844595 * t :=
      rfl
    rw [hCt]
    have h53n : (2 : Nat) ^ 53 = 9007199254740992 := by norm_num
    have h50n : (2 : Nat) ^ 50 = 1125899906842624 := by norm_num
    have hP1 : 5404319552844595 ≤ 5404319552844595 * t :=
      Nat.le_mul_of_pos_right _ ht1
    have hPbig : 5404319552844595 * t < 2 ^ 103 := by
      have h1 : 5404319552844595 * t ≤ 5404319552844595 * 2 ^ 50 :=
        Nat.mul_le_mul_left _ (by omega)
      have h2 : (2 : Nat) ^ 103 = 2 ^ 53 * 2 ^ 50 := by norm_num
      have h3 : 5404319552844595 * 2 ^ 50 < 2 ^ 53 * 2 ^ 50 :=
        (Nat.mul_lt_mul_right (by positivity)).mpr (by omega)
      omega
    have hPpos : 1 ≤ 5404319552844595 * t := by omega
    have hPverybig : 5404319552844595 * t < 2 ^ 2048 :=
      lt_trans hPbig (Nat.pow_lt_pow_right (by omega) (by omega))
    by_cases hk : bitLen (5404319552844595 * t) ≤ 53
    · -- only t = 1 lands here
      obtain ⟨-, hu⟩ := bitLen_spec _ hPpos hPverybig
      have hPlt : 5404319552844595 * t < 2 ^ 53 :=
        lt_of_lt_of_le hu (Nat.pow_le_pow_right (by omega) hk)
      have ht1' : t = 1 := by
        by_contra hc
        have h2t : 2 ≤ t := by omega
        have := Nat.mul_le_mul_left 5404319552844595 h2t
        omega
      subst ht1'
      unfold roundSig53
      rw [if_pos hk]
      decide
    · push_neg at hk
      obtain ⟨hPl, hPu⟩ := bitLen_spec _ hPpos hPverybig
      have hk103 : bitLen (5404319552844595 * t) ≤ 103 :=
        bitLen_le _ 103 hPbig (by omega)
      have hrs : roundSig53 (5404319552844595 * t) =
          (rneShift (5404319552844595 * t) (bitLen (5404319552844595 * t) - 53),
           bitLen (5404319552844595 * t) - 53) := by
        unfold roundSig53
        rw [if_neg (by omega)]
      rw [hrs]
      simp only [Nat.zero_add]
      rw [if_neg (by omega : ¬53 ≤ bitLen (5404319552844595 * t) - 53)]
      -- abbreviations
      set P := 5404319552844595 * t with hPdef
      set s := bitLen P - 53 with hsdef
      have hs1 : 1 ≤ s := by omega
      have hs50 : s ≤ 50 := by omega
      set m := rneShift P s with hmdef
      set F := 3 * t / 5 with hFdef
      have hFj := Nat.div_add_mod (3 * t) 5
      set j := 3 * t % 5 with hjdef
      have h3t : 3 * t = 5 * F + j := by omega
      have hj5 : j < 5 := Nat.mod_lt _ (by omega)
      have hpow : 2 ^ (53 - s) * 2 ^ s = 2 ^ 53 := by
        rw [← pow_add]
        congr 1
        omega
      have e2s : 2 ^ s = 2 * 2 ^ (s - 1) := by
        rw [← pow_succ']
        congr 1
        omega
      have hA49 : 2 ^ (s - 1) ≤ 2 ^ 49 :=
        Nat.pow_le_pow_right (by omega) (by omega)
      have h49n : (2 : Nat) ^ 49 = 562949953421312 := by norm_num
      have hkey : 5 * P + t = 3 * t * 9007199254740992 := by
        rw [hPdef]
        ring
      have hPl' : 2 ^ s * 2 ^ 52 ≤ P := by
        have he : 2 ^ (bitLen P - 1) = 2 ^ s * 2 ^ 52 := by
          rw [← pow_add]
          congr 1
          omega
        omega
      have hPu' : P < 2 ^ s * 2 ^ 53 := by
        have he : 2 ^ bitLen P = 2 ^ s * 2 ^ 53 := by
          rw [← pow_add]
          congr 1
          omega
        omega
      have hgoal : F * 2 ^ (53 - s) ≤ m ∧ m < (F + 1) * 2 ^ (53 - s) := by
        by_cases hj0 : j = 0
        · -- t is a multiple of 5: the rounding returns the exact threshold
          have h5t : 5 ∣ t := by omega
          obtain ⟨u, hu⟩ := h5t
          have hu1 : 1 ≤ u := by omega
          have hPu27 : P = 27021597764222975 * u := by
            rw [hPdef, hu]
            ring
          have hulo : u < 2 ^ (s - 1) := by
            by_contra hc
            push_neg at hc
            have h1 : 27021597764222975 * 2 ^ (s - 1) ≤ 27021597764222975 * u :=
              Nat.mul_le_mul_left _ hc
            have h2 : 2 ^ s * 2 ^ 53 = 18014398509481984 * 2 ^ (s - 1) := by
              rw [e2s, h53n]
              ring
            omega
          have hF3u : F = 3 * u := by omega
          have hGval : F * 2 ^ (53 - s) * 2 ^ s = F * 2 ^ 53 := by
            rw [mul_assoc, hpow]
          have hPG : P + u = F * 2 ^ (53 - s) * 2 ^ s := by
            rw [hGval, h53n]
            -- 5·(P + u) = 5F·2^53 since 5P + t = 3t·2^53 and 3t = 5F, t = 5u
            have h5F : 5 * F = 3 * t := by omega
            have : 5 * (F * 9007199254740992) = 3 * t * 9007199254740992 := by
              rw [← h5F]
              ring
            omega
          have hG1 : 2 ^ (53 - s) ≤ F * 2 ^ (53 - s) :=
            Nat.le_mul_of_pos_left _ (by omega)
          have hBpos : 0 < 2 ^ (53 - s) := by positivity
          have hspos : 0 < 2 ^ s := by positivity
          have hdecomp : P = (2 ^ s - u) + (F * 2 ^ (53 - s) - 1) * 2 ^ s := by
            rw [Nat.sub_mul, one_mul]
            have : 2 ^ s ≤ F * 2 ^ (53 - s) * 2 ^ s :=
              Nat.le_mul_of_pos_left _ (Nat.mul_pos (by omega) (by positivity))
            omega
          have hq : P / 2 ^ s = F * 2 ^ (53 - s) - 1 := by
            rw [hdecomp, Nat.add_mul_div_right _ _ hspos,
              Nat.div_eq_of_lt (by omega)]
            omega
          have hr : P % 2 ^ s = 2 ^ s - u := by
            rw [hdecomp, Nat.add_mul_mod_self_right,
              Nat.mod_eq_of_lt (by omega)]
          have hm2 : m = F * 2 ^ (53 - s) := by
            rw [hmdef, rneShift_eq_add_one P s hs1 (by omega), hq]
            omega
          constructor
          · omega
          · have : (F + 1) * 2 ^ (53 - s) = F * 2 ^ (53 - s) + 2 ^ (53 - s) :=
              Nat.succ_mul _ _
            omega
        · -- 3·t mod 5 ≥ 1: the fractional margin absorbs the rounding error
          have hj1 : 1 ≤ j := by omega
          obtain ⟨hb1, hb2⟩ := rneShift_bounds P s hs1
          rw [← hmdef] at hb1 hb2
          constructor
          · by_contra hc
            push_neg at hc
            have h1 : (m + 1) * 2 ^ s ≤ F * 2 ^ (53 - s) * 2 ^ s :=
              Nat.mul_le_mul_right _ (by omega)
            rw [mul_assoc, hpow, h53n] at h1
            have h2 : (m + 1) * 2 ^ s = m * 2 ^ s + 2 ^ s := Nat.succ_mul _ _
            omega
          · by_contra hc
            push_neg at hc
            have h1 : (F + 1) * 2 ^ (53 - s) * 2 ^ s ≤ m * 2 ^ s :=
              Nat.mul_le_mul_right _ hc
            rw [mul_assoc, hpow, h53n] at h1
            have h2 : (F + 1) * 9007199254740992 =
                F * 9007199254740992 + 9007199254740992 := Nat.succ_mul _ _
            omega
      have hBpos : 0 < 2 ^ (53 - s) := by positivity
      have hle : F ≤ m / 2 ^ (53 - s) := (Nat.le_div_iff_mul_le hBpos).mpr hgoal.1
      have hlt : m / 2 ^ (53 - s) < F + 1 := (Nat.div_lt_iff_lt_mul hBpos).mpr hgoal.2
      omega

/-!  ### Lemmas about progress records  -/

theorem mem_addToSet (x : Int) (l : List Int) : x ∈ addToSet x l := by
  unfold addToSet
  by_cases h : x ∈ l <;> simp [h]

theorem count_addToSet (x : Int) (l : List Int) :
    (addToSet x l).count x = max (l.count x) 1 := by
  unfold addToSet
  by_cases h : x ∈ l
  · rw [if_pos h]
    have h1 : 0 < l.count x := List.count_pos_iff.mpr h
    omega
  · rw [if_neg h, List.count_append, List.count_eq_zero.mpr h]
    simp

theorem findProgress_get_or_create (db : DB) (u d : String) :
    findProgress (get_or_create_progress db u d).1 u d =
      some (get_or_create_progress db u d).2 := by
  unfold get_or_create_progress
  cases h : findProgress db u d with
  | some pr => simpa using h
  | none =>
    unfold findProgress at h ⊢
    simp only [List.find?_append, h, Option.none_or]
    simp [progMatches]

theorem get_or_create_frame (db : DB) (u d : String) :
    (get_or_create_progress db u d).1.users = db.users ∧
    (get_or_create_progress db u d).1.nextId = db.nextId ∧
    (get_or_create_progress db u d).1.roadmaps = db.roadmaps ∧
    (get_or_create_progress db u d).1.results = db.results := by
  unfold get_or_create_progress
  cases findProgress db u d <;> simp

theorem find?_update_progress_passed (u d : String) (o : Int) (s : Nat)
    (l : List Progress) (pr : Progress) (h : l.find? (progMatches u d) = some pr) :
    (update_progress_passed u d o s l).find? (progMatches u d) =
      some { pr with completed_steps := addToSet o pr.completed_steps,
                     scores := setScoreKey o s pr.scores } := by
  induction l with
  | nil => cases h
  | cons pr₁ rest ih =>
    cases hb : progMatches u d pr₁ with
    | true =>
      rw [List.find?_cons_of_pos _ hb] at h
      cases h
      unfold update_progress_passed
      rw [if_pos hb]
      exact List.find?_cons_of_pos _ hb
    | false =>
      have hb' : ¬progMatches u d pr₁ = true := by simp [hb]
      rw [List.find?_cons_of_neg _ hb'] at h
      unfold update_progress_passed
      rw [if_neg hb']
      rw [List.find?_cons_of_neg _ hb']
      exact ih h

/-!  ### Lemmas about seeding  -/

theorem seedOne_roadmaps_append (db : DB) (d : String × List RoadmapStep) :
    ∃ new, (seedOne db d).roadmaps = db.roadmaps ++ new := by
  unfold seedOne
  by_cases h : (findRoadmap db d.1).isSome
  · exact ⟨[], by simp [h]⟩
  · exact ⟨[⟨d.1, d.2⟩], by simp [h]⟩

theorem foldl_seedOne_roadmaps_append (L : List (String × List RoadmapStep))
    (db : DB) : ∃ new, (L.foldl seedOne db).roadmaps = db.roadmaps ++ new := by
  induction L generalizing db with
  | nil => exact ⟨[], by simp⟩
  | cons d rest ih =>
    obtain ⟨n₁, h₁⟩ := seedOne_roadmaps_append db d
    obtain ⟨n₂, h₂⟩ := ih (seedOne db d)
    exact ⟨n₁ ++ n₂, by rw [List.foldl_cons, h₂, h₁, List.append_assoc]⟩

theorem findRoadmap_foldl_of_isSome (L : List (String × List RoadmapStep))
    (db : DB) (dom : String) (h : (findRoadmap db dom).isSome) :
    findRoadmap (L.foldl seedOne db) dom = findRoadmap db dom := by
  obtain ⟨new, hnew⟩ := foldl_seedOne_roadmaps_append L db
  obtain ⟨r, hr⟩ := Option.isSome_iff_exists.mp h
  unfold findRoadmap at *
  rw [hnew, List.find?_append, hr]
  rfl

theorem isSome_findRoadmap_seedOne_self (db : DB) (d : String × List RoadmapStep) :
    (findRoadmap (seedOne db d) d.1).isSome := by
  by_cases h : (findRoadmap db d.1).isSome
  · unfold seedOne
    rw [if_pos h]
    exact h
  · unfold seedOne
    rw [if_neg h]
    unfold findRoadmap at h ⊢
    rw [Option.not_isSome_iff_eq_none] at h
    simp only [List.find?_append, h, Option.none_or]
    simp

theorem isSome_findRoadmap_foldl (L : List (String × List RoadmapStep)) (db : DB)
    (d : String × List RoadmapStep) (hd : d ∈ L) :
    (findRoadmap (L.foldl seedOne db) d.1).isSome := by
  induction L generalizing db with
  | nil => cases hd
  | cons e rest ih =>
    rcases List.mem_cons.mp hd with rfl | hd'
    · rw [List.foldl_cons]
      have h := isSome_findRoadmap_seedOne_self db d
      rw [findRoadmap_foldl_of_isSome rest (seedOne db d) d.1 h]
      exact h
    · exact ih (seedOne db e) hd'

theorem seedOne_of_present (db : DB) (d : String × List RoadmapStep)
    (h : (findRoadmap db d.1).isSome) : seedOne db d = db := by
  unfold seedOne
  rw [if_pos h]

theorem foldl_seedOne_of_present (L : List (String × List RoadmapStep)) (db : DB)
    (h : ∀ d ∈ L, (findRoadmap db d.1).isSome) : L.foldl seedOne db = db := by
  induction L with
  | nil => rfl
  | cons e rest ih =>
    rw [List.foldl_cons, seedOne_of_present db e (h e (by simp))]
    exact ih (fun d hd => h d (by simp [hd]))

theorem ensure_roadmaps_seeded_idem (db : DB) :
    ensure_roadmaps_seeded (ensure_roadmaps_seeded db) = ensure_roadmaps_seeded db := by
  unfold ensure_roadmaps_seeded
  exact foldl_seedOne_of_present _ _
    (fun d hd => isSome_findRoadmap_foldl _ db d hd)

/-!  ### Characterisation of `submit_assessment`  -/

theorem submit_gate_fail (db : DB) (p : SubmitAssessment) (rm : Roadmap)
    (step : RoadmapStep) (hrm : findRoadmap db p.domain = some rm)
    (hst : rm.steps.find? (fun s => s.order == p.step_order) = some step)
    (hgate : p.step_order > 1 ∧ (p.step_order - 1) ∉
      (get_or_create_progress db p.user_id p.domain).2.completed_steps) :
    submit_assessment db p =
      ((get_or_create_progress db p.user_id p.domain).1,
       .error ⟨403, ("Complete previous step first")⟩) := by
  unfold submit_assessment
  simp only [hrm, hst]
  rw [if_pos hgate]

theorem submit_gate_ok (db : DB) (p : SubmitAssessment) (rm : Roadmap)
    (step : RoadmapStep) (hrm : findRoadmap db p.domain = some rm)
    (hst : rm.steps.find? (fun s => s.order == p.step_order) = some step)
    (hgate : ¬(p.step_order > 1 ∧ (p.step_order - 1) ∉
      (get_or_create_progress db p.user_id p.domain).2.completed_steps)) :
    submit_assessment db p =
      (let gc := get_or_create_progress db p.user_id p.domain
       let result := submitResult step p
       let db₂ : DB := { gc.1 with results := gc.1.results ++ [result] }
       let db₃ : DB :=
         if result.passed then
           { db₂ with progresses :=
               (update_progress_passed p.user_id p.domain p.step_order
                 result.score db₂.progresses) }
         else db₂
       (db₃, .ok result)) := by
  unfold submit_assessment
  simp only [hrm, hst]
  rw [if_neg hgate]

theorem submit_ok_inv (db : DB) (p : SubmitAssessment) (r : AssessmentResult)
    (hok : (submit_assessment db p).2 = .ok r) :
    ∃ rm step, findRoadmap db p.domain = some rm ∧
      rm.steps.find? (fun s => s.order == p.step_order) = some step ∧
      ¬(p.step_order > 1 ∧ (p.step_order - 1) ∉
        (get_or_create_progress db p.user_id p.domain).2.completed_steps) ∧
      r = submitResult step p ∧
      (submit_assessment db p).1 =
        (let gc := get_or_create_progress db p.user_id p.domain
         let db₂ : DB := { gc.1 with results := gc.1.results ++ [r] }
         if r.passed then
           { db₂ with progresses :=
               (update_progress_passed p.user_id p.domain p.step_order
                 r.score db₂.progresses) }
         else db₂) := by
  cases hrm : findRoadmap db p.domain with
  | none =>
    unfold submit_assessment at hok
    simp only [hrm] at hok
    exact Except.noConfusion hok
  | some rm =>
    cases hst : rm.steps.find? (fun s => s.order == p.step_order) with
    | none =>
      unfold submit_assessment at hok
      simp only [hrm, hst] at hok
      exact Except.noConfusion hok
    | some step =>
      by_cases hgate : p.step_order > 1 ∧ (p.step_order - 1) ∉
          (get_or_create_progress db p.user_id p.domain).2.completed_steps
      · rw [submit_gate_fail db p rm step hrm hst hgate] at hok
        simp at hok
      · have heq := submit_gate_ok db p rm step hrm hst hgate
        have hr : r = submitResult step p := by
          rw [heq] at hok
          simp only [] at hok
          exact (Except.ok.injEq _ _ ▸ hok).symm
        refine ⟨rm, step, rfl, hst, hgate, hr, ?_⟩
        rw [heq, hr]

theorem isStepUnlocked_iff (prog : Progress) (o : Int) :
    isStepUnlocked prog o = true ↔
      ¬(o > 1 ∧ (o - 1) ∉ prog.completed_steps) := by
  unfold isStepUnlocked
  by_cases h1 : o > 1 <;> by_cases h2 : (o - 1) ∈ prog.completed_steps <;>
    simp [h1, h2]

theorem get_or_create_of_found (db : DB) (u d : String) (pr : Progress)
    (h : findProgress db u d = some pr) :
    get_or_create_progress db u d = (db, pr) := by
  unfold get_or_create_progress
  rw [h]

theorem updateFirstUser_no_match (oid : Nat) (updates : Doc) (l : List Doc)
    (h : ∀ d ∈ l, lookupKey ("_id") d ≠ some (.vId oid)) :
    updateFirstUser oid updates l = l := by
  induction l with
  | nil => rfl
  | cons d rest ih =>
    unfold updateFirstUser
    rw [if_neg (by simpa using h d (by simp)), ih (fun e he => h e (by simp [he]))]

/-!  ### Concrete fixtures used by the witnesses  -/

def wStep1 : RoadmapStep :=
  { order := 1, title := ("s1"), description := ("d1"), videos := [],
    questions := [{ q := ("q1"), options := [("a"), ("b")], answerIndex := some 1 }] }

def wStep2 : RoadmapStep :=
  { order := 2, title := ("s2"), description := ("d2"), videos := [],
    questions := [{ q := ("q2"), options := [("a"), ("b")], answerIndex := some 0 },
                  { q := ("q3"), options := [("a"), ("b")], answerIndex := some 1 }] }

def wDB : DB := { emptyDB with roadmaps := [⟨("dom"), [wStep1, wStep2]⟩] }

def wSub1 : SubmitAssessment := ⟨("u"), ("dom"), 1, [1]⟩

def wSub2 : SubmitAssessment := ⟨("u"), ("dom"), 2, [0, 1]⟩

def wR1 : AssessmentResult := ⟨("u"), ("dom"), 1, 1, 1, true⟩

/-!  ### Claims  -/

/-- Claim C1: for every assessment submission that passes the step gate, the
computed score equals the number of positions `i` such that `i` is below the
step's question count, the submitted answers list has an element at position
`i`, and that element equals the question's correct-answer index at position
`i`; answers beyond the question count do not contribute, missing answers
contribute nothing, and the reported total is the number of questions. -/
theorem C1_submitted_score (db : DB) (p : SubmitAssessment) (rm : Roadmap)
    (step : RoadmapStep) (r : AssessmentResult)
    (hrm : findRoadmap db p.domain = some rm)
    (hst : rm.steps.find? (fun s => s.order == p.step_order) = some step)
    (hok : (submit_assessment db p).2 = .ok r) :
    r.score = claimScore step.questions p.answers ∧
    r.total = step.questions.length := by
  obtain ⟨rm', step', hrm', hst', hgate, hr, -⟩ := submit_ok_inv db p r hok
  rw [hrm] at hrm'
  cases hrm'
  rw [hst] at hst'
  cases hst'
  subst hr
  constructor
  · show submitScore step p = claimScore step.questions p.answers
    unfold submitScore correct_indexes
    exact gradeScore_eq_claimScore step.questions p.answers
  · show submitTotal step = step.questions.length
    unfold submitTotal correct_indexes
    exact List.length_map _ _

theorem C1_witness :
    wR1.score = claimScore wStep1.questions wSub1.answers ∧
    wR1.total = wStep1.questions.length :=
  C1_submitted_score wDB wSub1 ⟨("dom"), [wStep1, wStep2]⟩ wStep1 wR1 rfl rfl rfl

/-- Claim C2 (amended): for every graded submission whose total question
count is below `2^50`, the pass flag is true iff
`score ≥ max(1, ⌊0.6·total⌋)` in exact arithmetic; in particular a
one-question step passes iff its one question was answered correctly.  The
restriction is forced by the handler's floating-point threshold
`int(0.6*total)`, which exceeds the exact floor at astronomically large
totals (see `C2_counterexample`). -/
theorem C2_pass_threshold (db : DB) (p : SubmitAssessment) (r : AssessmentResult)
    (hok : (submit_assessment db p).2 = .ok r) (htot : r.total < 2 ^ 50) :
    (r.passed = true ↔ r.score ≥ max 1 (Nat.floor ((0.6 : ℚ) * r.total))) ∧
    (r.total = 1 → (r.passed = true ↔ 1 ≤ r.score)) := by
  obtain ⟨rm, step, -, -, -, hr, -⟩ := submit_ok_inv db p r hok
  subst hr
  simp only [submitResult] at htot ⊢
  simp only [submitPassed]
  rw [floatThreshold_eq_exact _ htot]
  constructor
  · rw [floor_point_six]
    exact decide_eq_true_iff
  · intro h1
    rw [h1, decide_eq_true_iff]
    omega

theorem C2_witness :
    (wR1.passed = true ↔ wR1.score ≥ max 1 (Nat.floor ((0.6 : ℚ) * wR1.total))) ∧
    (wR1.total = 1 → (wR1.passed = true ↔ 1 ≤ wR1.score)) :=
  C2_pass_threshold wDB wSub1 wR1 rfl (by decide)

/-- A graded score over lists of repeated answers: every position up to the
shorter length matches. -/
theorem gradeScore_replicate (a : Int) (m n : Nat) :
    gradeScore (List.replicate n (some a)) (List.replicate m a) = min m n := by
  rw [gradeScore, scoreAux_eq_countP_zip, List.drop_zero, List.zip_replicate,
    List.countP_replicate]
  simp

def cexN : Nat := 7505999378950828

def cexM : Nat := 4503599627370496

def cexQ : Question := ⟨("q"), [], some 0⟩

/-- A step with `cexN` questions, all with correct-answer index 0. -/
def cexStep : RoadmapStep := ⟨1, ("s"), ("d"), [], List.replicate cexN cexQ⟩

def cexDB : DB := { emptyDB with roadmaps := [⟨("dom"), [cexStep]⟩] }

/-- A submission answering the first `cexM` of those questions correctly. -/
def cexSub : SubmitAssessment := ⟨("u"), ("dom"), 1, List.replicate cexM 0⟩

/-- Refutation of claim C2 as frozen: a graded submission with
`score = 4503599627370496` out of `total = 7505999378950828` questions
satisfies `score ≥ max(1, ⌊0.6·total⌋)` in exact arithmetic (the exact floor
is `4503599627370496`), yet the handler computes `int(0.6*total) =
4503599627370497` in floating point and reports the submission as failed. -/
theorem C2_counterexample :
    ∃ r, (submit_assessment cexDB cexSub).2 = .ok r ∧
      r.passed = false ∧
      r.score ≥ max 1 (Nat.floor ((0.6 : ℚ) * r.total)) := by
  have hrm : findRoadmap cexDB cexSub.domain = some ⟨("dom"), [cexStep]⟩ := rfl
  have hst : (⟨("dom"), [cexStep]⟩ : Roadmap).steps.find?
      (fun s => s.order == cexSub.step_order) = some cexStep := rfl
  have hgate : ¬(cexSub.step_order > 1 ∧ (cexSub.step_order - 1) ∉
      (get_or_create_progress cexDB cexSub.user_id cexSub.domain).2.completed_steps) := by
    intro hcon
    have h := hcon.1
    rw [show cexSub.step_order = (1 : Int) from rfl] at h
    omega
  have heq := submit_gate_ok cexDB cexSub ⟨("dom"), [cexStep]⟩ cexStep hrm hst hgate
  have hq : correct_indexes cexStep = List.replicate cexN (some 0) := by
    show (List.replicate cexN cexQ).map (fun q => q.answerIndex) =
      List.replicate cexN (some 0)
    rw [List.map_replicate]
    congr 1
  have hsc : submitScore cexStep cexSub = cexM := by
    show gradeScore (correct_indexes cexStep) (List.replicate cexM 0) = cexM
    rw [hq, gradeScore_replicate]
    decide
  have hto : submitTotal cexStep = cexN := by
    unfold submitTotal
    rw [hq, List.length_replicate]
  have hpassed : submitPassed cexStep cexSub = false := by
    unfold submitPassed
    rw [hsc, hto]
    decide
  refine ⟨submitResult cexStep cexSub, ?_, ?_, ?_⟩
  · rw [heq]
  · simp only [submitResult]
    exact hpassed
  · simp only [submitResult]
    rw [hsc, hto, floor_point_six]
    decide

/-- Claim C3: submitting step `N > 1` while step `N − 1` is not in the user's
completed set fails with the 403 gate error and records no grading result,
and a step is unlocked exactly when its order is 1 or the preceding order is
completed (for the 1-based step orders of this system). -/
theorem C3_step_gate (db : DB) (p : SubmitAssessment) (rm : Roadmap)
    (step : RoadmapStep) (hrm : findRoadmap db p.domain = some rm)
    (hst : rm.steps.find? (fun s => s.order == p.step_order) = some step) :
    (p.step_order > 1 ∧ (p.step_order - 1) ∉
        (get_or_create_progress db p.user_id p.domain).2.completed_steps →
      (submit_assessment db p).2 = .error ⟨403, ("Complete previous step first")⟩ ∧
      (submit_assessment db p).1.results = db.results) ∧
    ((submit_assessment db p).2 ≠ .error ⟨403, ("Complete previous step first")⟩ ↔
      isStepUnlocked (get_or_create_progress db p.user_id p.domain).2
        p.step_order = true) ∧
    (1 ≤ p.step_order →
      (isStepUnlocked (get_or_create_progress db p.user_id p.domain).2
          p.step_order = true ↔
        (p.step_order = 1 ∨ (p.step_order - 1) ∈
          (get_or_create_progress db p.user_id p.domain).2.completed_steps))) := by
  refine ⟨?_, ?_, ?_⟩
  · intro hgate
    rw [submit_gate_fail db p rm step hrm hst hgate]
    exact ⟨rfl, (get_or_create_frame db p.user_id p.domain).2.2.2⟩
  · by_cases hgate : p.step_order > 1 ∧ (p.step_order - 1) ∉
        (get_or_create_progress db p.user_id p.domain).2.completed_steps
    · rw [submit_gate_fail db p rm step hrm hst hgate, isStepUnlocked_iff]
      simp [hgate]
    · rw [submit_gate_ok db p rm step hrm hst hgate, isStepUnlocked_iff]
      simp [hgate]
  · intro h1
    rw [isStepUnlocked_iff]
    constructor
    · intro h
      by_cases h2 : p.step_order = 1
      · exact Or.inl h2
      · right
        by_contra h3
        exact h ⟨by omega, h3⟩
    · rintro (h2 | h2) hcon
      · exact absurd hcon.1 (by omega)
      · exact hcon.2 h2

theorem C3_witness :
    (wSub2.step_order > 1 ∧ (wSub2.step_order - 1) ∉
        (get_or_create_progress wDB wSub2.user_id wSub2.domain).2.completed_steps →
      (submit_assessment wDB wSub2).2 =
        .error ⟨403, ("Complete previous step first")⟩ ∧
      (submit_assessment wDB wSub2).1.results = wDB.results) ∧
    ((submit_assessment wDB wSub2).2 ≠
        .error ⟨403, ("Complete previous step first")⟩ ↔
      isStepUnlocked (get_or_create_progress wDB wSub2.user_id wSub2.domain).2
        wSub2.step_order = true) ∧
    (1 ≤ wSub2.step_order →
      (isStepUnlocked (get_or_create_progress wDB wSub2.user_id wSub2.domain).2
          wSub2.step_order = true ↔
        (wSub2.step_order = 1 ∨ (wSub2.step_order - 1) ∈
          (get_or_create_progress wDB wSub2.user_id wSub2.domain).2.completed_steps))) :=
  C3_step_gate wDB wSub2 ⟨("dom"), [wStep1, wStep2]⟩ wStep2 rfl rfl

/-- Claim C4: every graded submission appends exactly one new
`AssessmentResult`; a failing submission leaves the progress records exactly
as the fetch-or-create step left them (no completed step added, no score
changed); a passing submission leaves the step order present in the user's
completed set with multiplicity `max(previous multiplicity, 1)`, so repeated
passes keep it present exactly once. -/
theorem C4_submission_effects (db : DB) (p : SubmitAssessment)
    (r : AssessmentResult) (hok : (submit_assessment db p).2 = .ok r) :
    (submit_assessment db p).1.results = db.results ++ [r] ∧
    (r.passed = false →
      (submit_assessment db p).1.progresses =
        (get_or_create_progress db p.user_id p.domain).1.progresses) ∧
    (r.passed = true →
      ∃ pr, findProgress (submit_assessment db p).1 p.user_id p.domain = some pr ∧
        p.step_order ∈ pr.completed_steps ∧
        pr.completed_steps.count p.step_order =
          max ((get_or_create_progress db p.user_id p.domain).2.completed_steps.count
            p.step_order) 1) := by
  obtain ⟨rm, step, hrm, hst, hgate, hr, hdb⟩ := submit_ok_inv db p r hok
  have hres := (get_or_create_frame db p.user_id p.domain).2.2.2
  have hfind := findProgress_get_or_create db p.user_id p.domain
  by_cases hp : r.passed = true
  · rw [hdb]
    simp only []
    rw [if_pos hp]
    refine ⟨?_, ?_, ?_⟩
    · show (get_or_create_progress db p.user_id p.domain).1.results ++ [r] =
        db.results ++ [r]
      rw [hres]
    · intro hcon
      rw [hp] at hcon
      exact Bool.noConfusion hcon
    · intro _
      exact ⟨_, find?_update_progress_passed p.user_id p.domain p.step_order r.score
        (get_or_create_progress db p.user_id p.domain).1.progresses
        (get_or_create_progress db p.user_id p.domain).2 hfind,
        mem_addToSet _ _, count_addToSet _ _⟩
  · rw [hdb]
    simp only []
    rw [if_neg hp]
    refine ⟨?_, ?_, ?_⟩
    · show (get_or_create_progress db p.user_id p.domain).1.results ++ [r] =
        db.results ++ [r]
      rw [hres]
    · intro _
      rfl
    · intro hcon
      exact absurd hcon hp

theorem C4_witness :
    (submit_assessment wDB wSub1).1.results = wDB.results ++ [wR1] ∧
    (wR1.passed = false →
      (submit_assessment wDB wSub1).1.progresses =
        (get_or_create_progress wDB wSub1.user_id wSub1.domain).1.progresses) ∧
    (wR1.passed = true →
      ∃ pr, findProgress (submit_assessment wDB wSub1).1 wSub1.user_id
          wSub1.domain = some pr ∧
        wSub1.step_order ∈ pr.completed_steps ∧
        pr.completed_steps.count wSub1.step_order =
          max ((get_or_create_progress wDB wSub1.user_id
            wSub1.domain).2.completed_steps.count wSub1.step_order) 1) :=
  C4_submission_effects wDB wSub1 wR1 rfl

/-- Claim C8: roadmap seeding is idempotent: it only ever appends records, it
inserts a domain only when no record for it exists (so an existing — possibly
edited — roadmap is never overwritten and is still what lookups return), and
running it twice from the empty store leaves exactly one record per
predefined domain, with the second run changing nothing. -/
theorem C8_seed_idempotent (db : DB) :
    (∃ inserted, (ensure_roadmaps_seeded db).roadmaps = db.roadmaps ++ inserted) ∧
    ensure_roadmaps_seeded (ensure_roadmaps_seeded db) = ensure_roadmaps_seeded db ∧
    (∀ dom, (findRoadmap db dom).isSome →
      findRoadmap (ensure_roadmaps_seeded db) dom = findRoadmap db dom) ∧
    (∀ dom ∈ SEED_ROADMAPS.map Prod.fst,
      (ensure_roadmaps_seeded emptyDB).roadmaps.countP
        (fun r => r.domain == dom) = 1 ∧
      (ensure_roadmaps_seeded (ensure_roadmaps_seeded emptyDB)).roadmaps.countP
        (fun r => r.domain == dom) = 1) := by
  refine ⟨foldl_seedOne_roadmaps_append _ db, ensure_roadmaps_seeded_idem db,
    ?_, ?_⟩
  · intro dom h
    exact findRoadmap_foldl_of_isSome _ db dom h
  · intro dom hdom
    simp only [SEED_ROADMAPS, List.map_cons, List.map_nil, List.mem_cons,
      List.not_mem_nil, or_false] at hdom
    rcases hdom with rfl | rfl | rfl <;>
      exact ⟨by decide, by rw [ensure_roadmaps_seeded_idem]; decide⟩

theorem C8_witness :
    (findRoadmap (ensure_roadmaps_seeded wDB) ("dom") =
      findRoadmap wDB ("dom")) ∧
    (ensure_roadmaps_seeded emptyDB).roadmaps.countP
      (fun r => r.domain == ("frontend")) = 1 :=
  ⟨(C8_seed_idempotent wDB).2.2.1 ("dom") (by decide),
   ((C8_seed_idempotent emptyDB).2.2.2 ("frontend") (by simp [SEED_ROADMAPS])).1⟩

/-- Claim C9: fetching progress returns the stored record when one exists;
otherwise it creates, persists and returns a record with empty completed set
and empty score map, and a second fetch finds the record the first one
created, so repeated reads are idempotent. -/
theorem C9_progress_read (db : DB) (uid dom : String) :
    (∀ pr, findProgress db uid dom = some pr →
      get_progress db uid dom = (db, pr)) ∧
    (findProgress db uid dom = none →
      get_progress db uid dom =
        ({ db with progresses := db.progresses ++ [⟨uid, dom, [], []⟩] },
         (⟨uid, dom, [], []⟩ : Progress))) ∧
    get_progress (get_progress db uid dom).1 uid dom = get_progress db uid dom := by
  refine ⟨?_, ?_, ?_⟩
  · intro pr h
    unfold get_progress
    exact get_or_create_of_found db uid dom pr h
  · intro h
    unfold get_progress get_or_create_progress
    simp only [h]
  · unfold get_progress
    rw [get_or_create_of_found _ _ _ _ (findProgress_get_or_create db uid dom)]

theorem C9_witness :
    get_progress emptyDB ("u") ("d") =
      ({ emptyDB with progresses := [⟨("u"), ("d"), [], []⟩] },
       (⟨("u"), ("d"), [], []⟩ : Progress)) :=
  (C9_progress_read emptyDB ("u") ("d")).2.1 rfl

/-- Claim C5: registration with a qualification outside the fixed allow-list
fails with the validation error; with an allowed qualification and an email
not already present it succeeds, appends exactly the new user document to the
store, and returns that stored record without the password digest. -/
theorem C5_register_allowlist (hash : String → String) (db : DB) (u : User)
    (hfresh : ∀ d ∈ db.users, lookupKey ("_id") d ≠ some (.vId db.nextId)) :
    (u.qualification ∉ ALLOWED_QUALIFICATIONS →
      register hash db u =
        .error ⟨403, ("Only IT-related students can register")⟩) ∧
    (u.qualification ∈ ALLOWED_QUALIFICATIONS →
      (∀ d ∈ db.users, lookupKey ("email") d ≠ some (.vStr u.email)) →
      ∃ db₁ stored resp,
        register hash db u = .ok (db₁, some resp) ∧
        db₁.users = db.users ++ [stored] ∧
        lookupKey ("password_hash") resp = none ∧
        (∀ k, k ≠ ("password_hash") → k ≠ ("_id") → k ≠ ("id") →
          lookupKey k resp = lookupKey k stored)) := by
  constructor
  · intro hq
    unfold register
    rw [if_pos hq]
  · intro hq hmail
    have hfind : findUserByEmail db u.email = none := by
      unfold findUserByEmail
      rw [List.find?_eq_none]
      intro d hd
      simp only [beq_iff_eq]
      exact hmail d hd
    have hid : findUserById (registerDB hash db u) db.nextId =
        some (registerStored hash db u) := by
      unfold findUserById registerDB
      simp only []
      rw [List.find?_append]
      have h1 : db.users.find?
          (fun d => lookupKey ("_id") d == some (.vId db.nextId)) = none := by
        rw [List.find?_eq_none]
        intro d hd
        simp only [beq_iff_eq]
        exact hfresh d hd
      rw [h1, Option.none_or]
      apply List.find?_cons_of_pos
      simp only [beq_iff_eq]
      unfold registerStored
      rw [lookupKey_setKey]
      simp
    have hreg : register hash db u =
        .ok (registerDB hash db u,
          to_str_id ((findUserById (registerDB hash db u) db.nextId).map
            (eraseKey ("password_hash")))) := by
      unfold register
      rw [if_neg (not_not_intro hq), hfind]
      rfl
    rw [hid] at hreg
    refine ⟨registerDB hash db u, registerStored hash db u,
      to_str_id_doc (eraseKey ("password_hash") (registerStored hash db u)),
      hreg, rfl, noDigest_of_to_str_id_erase rfl, ?_⟩
    intro k hk1 hk2 hk3
    rw [lookupKey_to_str_id hk3 hk2 rfl, lookupKey_eraseKey, if_neg hk1]

theorem C5_witness :
    ∃ db₁ stored resp,
      register (fun s => s) emptyDB
        ⟨("Al"), ("Bo"), ("a@b.c"), ("0123456789"), ("BCA"), ("pw1234"),
         ("student"), none⟩ = .ok (db₁, some resp) ∧
      db₁.users = emptyDB.users ++ [stored] ∧
      lookupKey ("password_hash") resp = none ∧
      (∀ k, k ≠ ("password_hash") → k ≠ ("_id") → k ≠ ("id") →
        lookupKey k resp = lookupKey k stored) :=
  (C5_register_allowlist (fun s => s) emptyDB
    ⟨("Al"), ("Bo"), ("a@b.c"), ("0123456789"), ("BCA"), ("pw1234"),
     ("student"), none⟩ (by simp [emptyDB])).2 (by decide) (by simp [emptyDB])

/-- Claim C6: login succeeds exactly when a user document with the given
email is found and its stored digest equals the hash of the given password;
every failure — unknown email or digest mismatch alike — is the same 401
error with the uniform "Invalid credentials" message. -/
theorem C6_login_uniform (hash : String → String) (db : DB)
    (email password : String) :
    ((∃ v, login hash db email password = .ok v) ↔
      (∃ u, findUserByEmail db email = some u ∧
        lookupKey ("password_hash") u = some (.vStr (hash password)))) ∧
    (∀ e, login hash db email password = .error e →
      e = ⟨401, ("Invalid credentials")⟩) := by
  constructor
  · constructor
    · rintro ⟨v, hv⟩
      unfold login at hv
      cases hf : findUserByEmail db email with
      | none =>
        simp only [hf] at hv
        exact Except.noConfusion hv
      | some user =>
        simp only [hf] at hv
        by_cases he : user.isEmpty
        · rw [if_pos he] at hv
          exact Except.noConfusion hv
        · rw [if_neg he] at hv
          by_cases hp : lookupKey ("password_hash") user ≠
              some (.vStr (hash password))
          · rw [if_pos hp] at hv
            exact Except.noConfusion hv
          · exact ⟨user, rfl, not_not.mp hp⟩
    · rintro ⟨u, hu, hpw⟩
      unfold login
      simp only [hu]
      have hne : ¬u.isEmpty = true := by
        intro hcon
        rw [List.isEmpty_iff.mp hcon] at hpw
        exact Option.noConfusion hpw
      rw [if_neg hne, if_neg (fun hc => hc hpw)]
      exact ⟨_, rfl⟩
  · intro e he
    unfold login at he
    cases hf : findUserByEmail db email with
    | none =>
      simp only [hf] at he
      exact ((Except.error.injEq _ _).mp he).symm
    | some user =>
      simp only [hf] at he
      by_cases h1 : user.isEmpty
      · rw [if_pos h1] at he
        exact ((Except.error.injEq _ _).mp he).symm
      · rw [if_neg h1] at he
        by_cases h2 : lookupKey ("password_hash") user ≠
            some (.vStr (hash password))
        · rw [if_pos h2] at he
          exact ((Except.error.injEq _ _).mp he).symm
        · rw [if_neg h2] at he
          exact Except.noConfusion he

theorem C6_witness :
    ((∃ v, login (fun s => s) emptyDB ("a@b.c") ("pw1234") = .ok v) ↔
      (∃ u, findUserByEmail emptyDB ("a@b.c") = some u ∧
        lookupKey ("password_hash") u = some (.vStr ("pw1234")))) ∧
    (⟨401, ("Invalid credentials")⟩ : HErr) =
      ⟨401, ("Invalid credentials")⟩ :=
  ⟨(C6_login_uniform (fun s => s) emptyDB ("a@b.c") ("pw1234")).1,
   (C6_login_uniform (fun s => s) emptyDB ("a@b.c") ("pw1234")).2 _ rfl⟩

/-- Claim C7: none of the user-returning operations — register, login,
profile read, profile update — ever includes the stored password digest in
the user document it returns. -/
theorem C7_no_digest_returned :
    (∀ (hash : String → String) (db : DB) (u : User) (db₁ : DB) (v : Doc),
      register hash db u = .ok (db₁, some v) →
        lookupKey ("password_hash") v = none) ∧
    (∀ (hash : String → String) (db : DB) (email password : String) (v : Doc),
      login hash db email password = .ok (some v) →
        lookupKey ("password_hash") v = none) ∧
    (∀ (parseId : String → Option Nat) (db : DB) (uid : String) (v : Doc),
      get_profile parseId db uid = .ok (some v) →
        lookupKey ("password_hash") v = none) ∧
    (∀ (parseId : String → Option Nat) (db : DB) (uid : String)
        (payload : UpdateProfile) (db₁ : DB) (v : Doc),
      update_profile parseId db uid payload = .ok (db₁, some v) →
        lookupKey ("password_hash") v = none) := by
  refine ⟨?_, ?_, ?_, ?_⟩
  · intro hash db u db₁ v hreg
    unfold register at hreg
    by_cases h1 : u.qualification ∉ ALLOWED_QUALIFICATIONS
    · rw [if_pos h1] at hreg
      exact Except.noConfusion hreg
    · rw [if_neg h1] at hreg
      by_cases h2 : truthyDoc (findUserByEmail db u.email) = true
      · rw [if_pos h2] at hreg
        exact Except.noConfusion hreg
      · rw [if_neg h2] at hreg
        simp only [] at hreg
        cases hfound : findUserById (registerDB hash db u) db.nextId with
        | none =>
          rw [hfound] at hreg
          simp only [Option.map_none', to_str_id] at hreg
          exact Option.noConfusion ((Prod.mk.injEq _ _ _ _).mp
            ((Except.ok.injEq _ _).mp hreg)).2
        | some d =>
          rw [hfound] at hreg
          simp only [Option.map_some', to_str_id] at hreg
          have hv : v = to_str_id_doc (eraseKey ("password_hash") d) :=
            (Option.some.injEq _ _ ▸ ((Prod.mk.injEq _ _ _ _).mp
              ((Except.ok.injEq _ _).mp hreg)).2).symm
          rw [hv]
          exact noDigest_of_to_str_id_erase rfl
  · intro hash db email password v hlog
    unfold login at hlog
    cases hf : findUserByEmail db email with
    | none =>
      simp only [hf] at hlog
      exact Except.noConfusion hlog
    | some user =>
      simp only [hf] at hlog
      by_cases h1 : user.isEmpty
      · rw [if_pos h1] at hlog
        exact Except.noConfusion hlog
      · rw [if_neg h1] at hlog
        by_cases h2 : lookupKey ("password_hash") user ≠
            some (.vStr (hash password))
        · rw [if_pos h2] at hlog
          exact Except.noConfusion hlog
        · rw [if_neg h2] at hlog
          simp only [to_str_id] at hlog
          have hv : v = to_str_id_doc (eraseKey ("password_hash") user) :=
            (Option.some.injEq _ _ ▸ (Except.ok.injEq _ _).mp hlog).symm
          rw [hv]
          exact noDigest_of_to_str_id_erase rfl
  · intro parseId db uid v hgp
    unfold get_profile at hgp
    cases hp : parseId uid with
    | none =>
      simp only [hp] at hgp
      exact Except.noConfusion hgp
    | some oid =>
      simp only [hp] at hgp
      cases hfound : findUserById db oid with
      | none =>
        simp only [hfound, Option.map_none'] at hgp
        exact Except.noConfusion hgp
      | some d =>
        simp only [hfound, Option.map_some'] at hgp
        by_cases h1 : (eraseKey ("password_hash") d).isEmpty
        · rw [if_pos h1] at hgp
          exact Except.noConfusion hgp
        · rw [if_neg h1] at hgp
          simp only [to_str_id] at hgp
          have hv : v = to_str_id_doc (eraseKey ("password_hash") d) :=
            (Option.some.injEq _ _ ▸ (Except.ok.injEq _ _).mp hgp).symm
          rw [hv]
          exact noDigest_of_to_str_id_erase rfl
  · intro parseId db uid payload db₁ v hup
    unfold update_profile at hup
    cases hp : parseId uid with
    | none =>
      simp only [hp] at hup
      exact Except.noConfusion hup
    | some oid =>
      simp only [hp] at hup
      by_cases h1 : payload.qualification ∉ ALLOWED_QUALIFICATIONS
      · rw [if_pos h1] at hup
        exact Except.noConfusion hup
      · rw [if_neg h1] at hup
        cases hfound : findUserById
            { db with users := updateFirstUser oid payload.model_dump db.users }
            oid with
        | none =>
          rw [hfound] at hup
          simp only [Option.map_none', to_str_id] at hup
          exact Option.noConfusion ((Prod.mk.injEq _ _ _ _).mp
            ((Except.ok.injEq _ _).mp hup)).2
        | some d =>
          rw [hfound] at hup
          simp only [Option.map_some', to_str_id] at hup
          have hv : v = to_str_id_doc (eraseKey ("password_hash") d) :=
            (Option.some.injEq _ _ ▸ ((Prod.mk.injEq _ _ _ _).mp
              ((Except.ok.injEq _ _).mp hup)).2).symm
          rw [hv]
          exact noDigest_of_to_str_id_erase rfl

def wAuthDB : DB :=
  { emptyDB with
    users := [[(("email"), .vStr ("a@b.c")),
               (("password_hash"), .vStr ("pw1234")),
               (("_id"), .vId 0)]] }

theorem C7_witness :
    lookupKey ("password_hash")
      [(("email"), Val.vStr ("a@b.c")), (("id"), Val.vStr ("0"))] = none :=
  C7_no_digest_returned.2.1 (fun s => s) wAuthDB ("a@b.c") ("pw1234")
    [(("email"), Val.vStr ("a@b.c")), (("id"), Val.vStr ("0"))] rfl

/-- Claim C10: a profile update whose well-formed user id matches no stored
user but whose qualification is allowed does not fail: it returns success
with a null user field and leaves the store unchanged (still without any
record for that id). -/
theorem C10_update_missing_user (parseId : String → Option Nat) (db : DB)
    (user_id : String) (payload : UpdateProfile) (oid : Nat)
    (hparse : parseId user_id = some oid)
    (hqual : payload.qualification ∈ ALLOWED_QUALIFICATIONS)
    (hnone : ∀ d ∈ db.users, lookupKey ("_id") d ≠ some (.vId oid)) :
    update_profile parseId db user_id payload = .ok (db, none) := by
  have hupd : updateFirstUser oid payload.model_dump db.users = db.users :=
    updateFirstUser_no_match _ _ _ hnone
  have hfind : findUserById db oid = none := by
    unfold findUserById
    rw [List.find?_eq_none]
    intro d hd
    simp only [beq_iff_eq]
    exact hnone d hd
  unfold update_profile
  simp only [hparse]
  rw [if_neg (not_not_intro hqual)]
  simp only [hupd]
  have heta : ({ db with users := db.users } : DB) = db := rfl
  rw [heta, hfind]
  rfl

theorem C10_witness :
    update_profile (fun _ => some 5) emptyDB ("abc")
      ⟨("Al"), ("Bo"), ("0123456789"), ("BCA"), none⟩ = .ok (emptyDB, none) :=
  C10_update_missing_user (fun _ => some 5) emptyDB ("abc")
    ⟨("Al"), ("Bo"), ("0123456789"), ("BCA"), none⟩ 5 rfl (by decide)
    (by simp [emptyDB])

end Lernify
